import Mathlib

/-!
A shallow embedding of `src/security_audit.py` (a passive web security
posture scanner).  The script issues HTTP GET requests via `requests` and
prints its analysis; here every network outcome is an explicit input
(`ProbeOutcome`), and every printed security warning is modelled as a
`Finding` in the category/severity/evidence schema the report uses.
Regex scans (`re.findall` / `re.search`) are embedded as character-level
matchers that reproduce the leftmost, non-overlapping matching of the
concrete patterns in the source, including greedy/lazy behaviour and
case-insensitive flags where the source sets them.  All text handling is
over ASCII inputs, matching the fixed patterns in the source.
-/

namespace SecAudit

/-! ## Character and string helpers -/

/-- The double-quote character. -/
def quoteD : Char := Char.ofNat 34

/-- The single-quote character. -/
def quoteS : Char := Char.ofNat 39

/-- Is `c` one of the two quote characters of the character class `["\']`? -/
def isQuote (c : Char) : Bool := c == quoteD || c == quoteS

/-- Python whitespace for `str.strip()` and the regex class `\s`
(space, tab, newline, carriage return, vertical tab, form feed). -/
def isPySpace (c : Char) : Bool :=
  c == ' ' || c == Char.ofNat 9 || c == Char.ofNat 10 || c == Char.ofNat 13 ||
  c == Char.ofNat 11 || c == Char.ofNat 12

/-- ASCII lowercasing of a character list, as Python `str.lower()` acts on
the ASCII inputs used by the audit's patterns. -/
def lowerL (l : List Char) : List Char := l.map Char.toLower

/-- `p` is a leading segment of `s` (case-sensitive). -/
def leadEq : List Char → List Char → Bool
  | [], _ => true
  | _ :: _, [] => false
  | p :: ps, c :: cs => p == c && leadEq ps cs

/-- `p` is a leading segment of `s` up to ASCII case. -/
def leadEqCI : List Char → List Char → Bool
  | [], _ => true
  | _ :: _, [] => false
  | p :: ps, c :: cs => p.toLower == c.toLower && leadEq (lowerL ps) (lowerL cs)

/-- Python's substring membership `pat in s` on character lists. -/
def hasSub (pat : List Char) : List Char → Bool
  | [] => leadEq pat []
  | c :: cs => leadEq pat (c :: cs) || hasSub pat cs

/-- Python's substring membership `pat in s` on strings. -/
def strHasSub (s pat : String) : Bool := hasSub pat.data s.data

/-- Python `str.strip()`: remove whitespace from both ends. -/
def pyStrip (l : List Char) : List Char :=
  ((l.dropWhile isPySpace).reverse.dropWhile isPySpace).reverse

/-- Split `s` at the first (case-sensitive) occurrence of `pat`:
returns the part before the occurrence and the part after it. -/
def splitAtSub (pat : List Char) : List Char → Option (List Char × List Char)
  | [] => none
  | c :: cs =>
    if leadEq pat (c :: cs) then some ([], (c :: cs).drop pat.length)
    else
      match splitAtSub pat cs with
      | some (pre, post) => some (c :: pre, post)
      | none => none

/-- Split `s` at the first occurrence of `pat` up to ASCII case. -/
def splitAtSubCI (pat : List Char) : List Char → Option (List Char × List Char)
  | [] => none
  | c :: cs =>
    if leadEqCI pat (c :: cs) then some ([], (c :: cs).drop pat.length)
    else
      match splitAtSubCI pat cs with
      | some (pre, post) => some (c :: pre, post)
      | none => none

/-! ## Data model

`Finding` follows the report schema: one detected condition with a
category, a severity, a short detail naming what was hit, and the evidence
text the script prints for it. -/

inductive Category where
  | headerMissing | cookieFlag | exposedFile | sensitiveComment
  | manyScripts | noCsrfToken | exposedSecret | weakTls | infoDisclosure
  deriving DecidableEq, Repr

inductive Severity where
  | info | warning | critical
  deriving DecidableEq, Repr

structure Finding where
  category : Category
  severity : Severity
  detail : String
  evidence : String
  deriving DecidableEq, Repr

/-- A neutral placeholder finding used only to read from a list head. -/
def emptyFinding : Finding := ⟨.infoDisclosure, .info, "", ""⟩

/-- A normalized HTTP response: status code, headers (ordered pairs with
case-insensitive lookup, as `requests.structures.CaseInsensitiveDict`),
and body text. -/
structure Response where
  status : Nat
  headers : List (String × String)
  body : String
  deriving DecidableEq, Repr

/-- The exception taxonomy of a failed `requests.get` call. -/
inductive ExnKind where
  | connectionError | timeout | sslError | tooManyRedirects | other
  deriving DecidableEq, Repr

/-- Outcome of one `requests.get` call: a response, or a raised exception
with its kind and message. -/
inductive ProbeOutcome where
  | ok (r : Response)
  | exn (k : ExnKind) (msg : String)
  deriving DecidableEq, Repr

/-- Case-insensitive header membership, `name in response.headers`. -/
def headerHas (hs : List (String × String)) (name : String) : Bool :=
  hs.any (fun p => lowerL p.1.data == lowerL name.data)

/-- Case-insensitive header lookup, `response.headers[name]`. -/
def headerGet (hs : List (String × String)) (name : String) : Option String :=
  (hs.find? (fun p => lowerL p.1.data == lowerL name.data)).map Prod.snd

/-- `requests.Response.__bool__`, i.e. `response.ok`: true unless
`raise_for_status` would raise, which it does exactly for
`400 <= status_code < 600`. -/
def response_ok (r : Response) : Bool := !(400 ≤ r.status && r.status < 600)

/-! ## Header analyzer (`check_security_headers`) -/

/-- The fixed dict of seven security headers with their descriptions. -/
def security_headers : List (String × String) :=
  [("Strict-Transport-Security", "HSTS - Forces HTTPS"),
   ("X-Frame-Options", "Prevents clickjacking"),
   ("X-Content-Type-Options", "Prevents MIME sniffing"),
   ("Content-Security-Policy", "Prevents XSS attacks"),
   ("X-XSS-Protection", "XSS filter (legacy)"),
   ("Referrer-Policy", "Controls referrer information"),
   ("Permissions-Policy", "Controls browser features")]

/-- The `missing` list built by the loop over `security_headers`: one
`HeaderMissing` finding per absent header, in dict order. -/
def missingOf (hs : List (String × String)) : List Finding :=
  (security_headers.filter (fun nd => !headerHas hs nd.1)).map
    (fun nd => ⟨.headerMissing, .warning, nd.1, nd.2⟩)

/-- The cookie-flag warnings: when a `Set-Cookie` header exists, one
`CookieFlag` finding per literal attribute absent from its value
(case-sensitive substring tests, in source order). -/
def cookieFindings (hs : List (String × String)) : List Finding :=
  match headerGet hs "Set-Cookie" with
  | none => []
  | some cookie =>
    (if !strHasSub cookie "Secure" then
      [⟨.cookieFlag, .warning, "Secure", "Missing Secure flag"⟩] else []) ++
    (if !strHasSub cookie "HttpOnly" then
      [⟨.cookieFlag, .warning, "HttpOnly", "Missing HttpOnly flag"⟩] else []) ++
    (if !strHasSub cookie "SameSite" then
      [⟨.cookieFlag, .warning, "SameSite", "Missing SameSite attribute"⟩] else [])

/-- `check_security_headers`: performs the primary GET; on any exception
prints an error and returns `None`; otherwise reports absent security
headers and cookie-flag warnings and returns the response. -/
def check_security_headers (p : ProbeOutcome) : Option Response × List Finding :=
  match p with
  | .exn _ _ => (none, [])
  | .ok r => (some r, missingOf r.headers ++ cookieFindings r.headers)

/-! ## File exposure prober (`check_common_files`) -/

/-- The fixed ordered list of sensitive paths probed with
`allow_redirects=False`. -/
def common_files : List String :=
  [".git/config", ".env", ".env.local", ".env.production", "config.php",
   "wp-config.php", ".htaccess", "phpinfo.php", "admin", "administrator",
   "wp-admin", "phpmyadmin", "backup.zip", "backup.sql", "database.sql",
   "robots.txt", "sitemap.xml", ".DS_Store", "package.json",
   "composer.json", ".git/HEAD"]

/-- One iteration of the probing loop: a `200` response appends the path to
the exposed list; any other status or any exception increments `safe`. -/
def filesStep (probe : String → ProbeOutcome) (acc : List String × Nat)
    (file : String) : List String × Nat :=
  match probe file with
  | .ok r => if r.status == 200 then (acc.1 ++ [file], acc.2) else (acc.1, acc.2 + 1)
  | .exn _ _ => (acc.1, acc.2 + 1)

/-- `check_common_files`: the loop over `common_files`, returning the
exposed paths in list order and the `safe` counter. -/
def check_common_files (probe : String → ProbeOutcome) : List String × Nat :=
  common_files.foldl (filesStep probe) ([], 0)

/-- The probe of path `file` came back with status exactly 200. -/
def isExposed (probe : String → ProbeOutcome) (file : String) : Bool :=
  match probe file with
  | .ok r => r.status == 200
  | .exn _ _ => false

/-- The `ExposedFile` findings, one per exposed path. -/
def fileFindings (probe : String → ProbeOutcome) : List Finding :=
  (check_common_files probe).1.map (fun f => ⟨.exposedFile, .critical, f, f⟩)

/-- The `{checked, exposed}` summary of the file-exposure probe. -/
structure FileSummary where
  checked : Nat
  exposed : Nat
  deriving DecidableEq, Repr

def fileSummaryOf (probe : String → ProbeOutcome) : FileSummary :=
  ⟨common_files.length, (check_common_files probe).1.length⟩

/-! ## Pattern scanners for the HTML content analyzer

Each `re.findall` scan is embedded as a fueled left-to-right scanner:
at each position the concrete pattern either matches (deterministically,
given the pattern's greedy/lazy structure) and scanning resumes after the
match, or the scan advances one character.  Fuel is the input length plus
one, enough for the per-step consumption of at least one character. -/

/-- One step of `re.findall(r'<!--(.*?)-->', html, re.DOTALL)`: at a
position starting with `<!--`, the lazy `(.*?)` captures up to the first
following `-->`. -/
def findCommentsFuel : Nat → List Char → List (List Char)
  | 0, _ => []
  | _ + 1, [] => []
  | fuel + 1, c :: cs =>
    if leadEq "<!--".data (c :: cs) then
      match splitAtSub "-->".data ((c :: cs).drop 4) with
      | some (body, post) => body :: findCommentsFuel fuel post
      | none => findCommentsFuel fuel cs
    else findCommentsFuel fuel cs

/-- All HTML comments of the body, in order. -/
def findComments (html : List Char) : List (List Char) :=
  findCommentsFuel (html.length + 1) html

/-- Generic scanner for `<TAG[^>]*>(.*?)</TAG>` patterns (`re.DOTALL`):
`open_` is the literal tag opener (e.g. `<form`), `close_` the literal
closer (e.g. `</form>`); `ci` selects `re.IGNORECASE`. -/
def findBlocksFuel (open_ close_ : List Char) (ci : Bool) :
    Nat → List Char → List (List Char)
  | 0, _ => []
  | _ + 1, [] => []
  | fuel + 1, c :: cs =>
    if (if ci then leadEqCI open_ (c :: cs) else leadEq open_ (c :: cs)) then
      let afterOpen := (c :: cs).drop open_.length
      let attrs := afterOpen.takeWhile (fun d => d != '>')
      match afterOpen.drop attrs.length with
      | '>' :: inner =>
        match (if ci then splitAtSubCI close_ inner else splitAtSub close_ inner) with
        | some (body, post) => body :: findBlocksFuel open_ close_ ci fuel post
        | none => findBlocksFuel open_ close_ ci fuel cs
      | _ => findBlocksFuel open_ close_ ci fuel cs
    else findBlocksFuel open_ close_ ci fuel cs

/-- `re.findall(r'<form[^>]*>(.*?)</form>', html, re.DOTALL | re.IGNORECASE)`. -/
def findForms (html : List Char) : List (List Char) :=
  findBlocksFuel "<form".data "</form>".data true (html.length + 1) html

/-- `re.findall(r'<script[^>]*>(.*?)</script>', html, re.DOTALL)`
(case-sensitive: the source sets no IGNORECASE here). -/
def findScripts (html : List Char) : List (List Char) :=
  findBlocksFuel "<script".data "</script>".data false (html.length + 1) html

/-- Try `action=["\']([^"\']+)["\']` (IGNORECASE) at this exact position. -/
def matchActionAt (s : List Char) : Option (List Char) :=
  if leadEqCI "action=".data s then
    match s.drop 7 with
    | q :: t =>
      if isQuote q then
        let v := t.takeWhile (fun d => !isQuote d)
        match t.drop v.length with
        | q2 :: _ => if isQuote q2 && v.length ≥ 1 then some v else none
        | [] => none
      else none
    | [] => none
  else none

/-- `re.search(r'action=["\']([^"\']+)["\']', form, re.IGNORECASE)`:
the capture of the leftmost match, if any. -/
def searchAction : List Char → Option (List Char)
  | [] => none
  | c :: cs =>
    match matchActionAt (c :: cs) with
    | some v => some v
    | none => searchAction cs

/-- Match a pattern literal case-insensitively at the head of `s`,
returning the actually consumed characters and the rest. -/
def matchCI : List Char → List Char → Option (List Char × List Char)
  | [], s => some ([], s)
  | _ :: _, [] => none
  | p :: ps, c :: cs =>
    if p.toLower == c.toLower then
      match matchCI ps cs with
      | some (k, r) => some (c :: k, r)
      | none => none
    else none

/-- The later alternatives `token|secret|password` of the key group,
tried in order at one position (IGNORECASE). -/
def matchKeyRest (s : List Char) : Option (List Char × List Char) :=
  match matchCI "token".data s with
  | some kr => some kr
  | none =>
    match matchCI "secret".data s with
    | some kr => some kr
    | none => matchCI "password".data s

/-- The key alternation `(api[_-]?key|token|secret|password)` (IGNORECASE),
tried in the regex's alternative order, with the greedy optional `[_-]?`
preferring to consume a separator.  Returns the captured key text. -/
def matchKeyAlt (s : List Char) : Option (List Char × List Char) :=
  match matchCI "api".data s with
  | some (k1, r1) =>
    (match r1 with
     | c :: r2 =>
       if c == '_' || c == '-' then
         match matchCI "key".data r2 with
         | some (k2, r3) => some (k1 ++ c :: k2, r3)
         | none =>
           match matchCI "key".data r1 with
           | some (k2, r3) => some (k1 ++ k2, r3)
           | none => matchKeyRest s
       else
         match matchCI "key".data r1 with
         | some (k2, r3) => some (k1 ++ k2, r3)
         | none => matchKeyRest s
     | [] => matchKeyRest s)
  | none => matchKeyRest s

/-- After the key, match `["\']?\s*[:=]\s*["\']([^"\']{20,})["\']`.
The leading `["\']?` is greedy: a quote at the head is consumed first and
the unconsumed alternative is tried on failure (Python backtracking).
`\s*` is maximal (whitespace is disjoint from `[:=]` and quotes), and the
value class `[^"\']{20,}` is a maximal quote-free run that must have
length at least 20 and be followed by a quote. -/
def matchSecretTail (s : List Char) : Option (List Char × List Char) :=
  let core : List Char → Option (List Char × List Char) := fun t =>
    match t.dropWhile isPySpace with
    | c :: t2 =>
      if c == ':' || c == '=' then
        match t2.dropWhile isPySpace with
        | q :: t4 =>
          if isQuote q then
            let v := t4.takeWhile (fun d => !isQuote d)
            match t4.drop v.length with
            | q2 :: t6 => if isQuote q2 && v.length ≥ 20 then some (v, t6) else none
            | [] => none
          else none
        | [] => none
      else none
    | [] => none
  match s with
  | c :: s1 =>
    if isQuote c then
      match core s1 with
      | some r => some r
      | none => core s
    else core s
  | [] => core s

/-- Try the whole secret pattern
`(api[_-]?key|token|secret|password)["\']?\s*[:=]\s*["\']([^"\']{20,})["\']`
at this exact position; returns (key capture, value capture, rest). -/
def matchSecretAt (s : List Char) : Option (List Char × List Char × List Char) :=
  match matchKeyAlt s with
  | none => none
  | some (k, r) =>
    match matchSecretTail r with
    | some (v, rest) => some (k, v, rest)
    | none => none

/-- `re.findall` scanner for the secret pattern: list of (key, value)
capture pairs. -/
def findSecretsFuel : Nat → List Char → List (List Char × List Char)
  | 0, _ => []
  | _ + 1, [] => []
  | fuel + 1, c :: cs =>
    match matchSecretAt (c :: cs) with
    | some (k, v, rest) => (k, v) :: findSecretsFuel fuel rest
    | none => findSecretsFuel fuel cs

def findSecrets (html : List Char) : List (List Char × List Char) :=
  findSecretsFuel (html.length + 1) html

/-! ### Email scanner
`re.findall(r'\b[A-Za-z0-9._%+-]+@[A-Za-z0-9.-]+\.[A-Z|a-z]{2,}\b', html)` -/

/-- `\w` for the `\b` boundary on ASCII input. -/
def isWordChar (c : Char) : Bool := c.isAlpha || c.isDigit || c == '_'

/-- The local-part class `[A-Za-z0-9._%+-]`. -/
def isLocalChar (c : Char) : Bool :=
  c.isAlpha || c.isDigit || c == '.' || c == '_' || c == '%' || c == '+' || c == '-'

/-- The domain class `[A-Za-z0-9.-]`. -/
def isDomChar (c : Char) : Bool := c.isAlpha || c.isDigit || c == '.' || c == '-'

/-- The top-level class `[A-Z|a-z]` (letters and the bar, as written). -/
def isTldChar (c : Char) : Bool := c.isAlpha || c == '|'

/-- A `\b` word boundary between an optional previous character and an
optional next character. -/
def wordBoundary (a b : Option Char) : Bool :=
  (match a with | none => false | some c => isWordChar c) !=
  (match b with | none => false | some c => isWordChar c)

/-- Backtracking for the greedy `[A-Z|a-z]{2,}\b` suffix: `rb` is the
reversed current candidate, `t` the rest after it; shrink from the maximal
run until the candidate has length at least 2 and ends at a boundary. -/
def shrinkTldR : List Char → List Char → Option (List Char × List Char)
  | [], _ => none
  | c :: rb, t =>
    if (c :: rb).length ≥ 2 && wordBoundary (some c) t.head? then
      some ((c :: rb).reverse, t)
    else shrinkTldR rb (c :: t)

/-- Backtracking for the greedy `[A-Za-z0-9.-]+` domain followed by
`\.[A-Z|a-z]{2,}\b`: `ra` is the reversed current (nonempty) candidate;
on failure the candidate is shortened from the right.  Returns the whole
matched domain text (candidate, dot, top-level part) and the rest. -/
def shrinkDomR : List Char → List Char → Option (List Char × List Char)
  | [], _ => none
  | c :: ra, t =>
    match t with
    | '.' :: t2 =>
      let b := t2.takeWhile isTldChar
      (match shrinkTldR b.reverse (t2.drop b.length) with
       | some (tld, rest) => some ((c :: ra).reverse ++ '.' :: tld, rest)
       | none => shrinkDomR ra (c :: t))
    | _ => shrinkDomR ra (c :: t)

/-- Try the email pattern at this exact position (`prev` is the character
before the position, for the leading `\b`).  Returns the whole match and
the rest. -/
def matchEmailAt (prev : Option Char) (s : List Char) : Option (List Char × List Char) :=
  if !wordBoundary prev s.head? then none
  else
    let lp := s.takeWhile isLocalChar
    if lp.isEmpty then none
    else
      match s.drop lp.length with
      | '@' :: t =>
        let a := t.takeWhile isDomChar
        if a.isEmpty then none
        else
          match shrinkDomR a.reverse (t.drop a.length) with
          | some (dom, rest) => some (lp ++ '@' :: dom, rest)
          | none => none
      | _ => none

/-- `re.findall` scanner for the email pattern, tracking the previous
character for `\b`. -/
def findEmailsFuel : Nat → Option Char → List Char → List String
  | 0, _, _ => []
  | _ + 1, _, [] => []
  | fuel + 1, prev, c :: cs =>
    match matchEmailAt prev (c :: cs) with
    | some (m, rest) =>
      String.mk m :: findEmailsFuel fuel (m.reverse.head?) rest
    | none => findEmailsFuel fuel (some c) cs

def findEmails (html : List Char) : List String :=
  findEmailsFuel (html.length + 1) none html

/-! ### Version scanner
`re.findall(r'version["\']?\s*[:=]\s*["\']?([0-9]+\.[0-9]+\.[0-9]+)', html, re.IGNORECASE)` -/

/-- Consume an optional quote (`["\']?`); the greedy optional is
deterministic here because a failure after consuming a quote can never be
rescued by the empty alternative (the following classes reject quotes). -/
def dropOptQuote (s : List Char) : List Char :=
  match s with
  | c :: cs => if isQuote c then cs else s
  | [] => s

/-- Try the version pattern at this exact position; returns the capture
`d1.d2.d3` and the rest after the whole match. -/
def matchVersionAt (s : List Char) : Option (List Char × List Char) :=
  match matchCI "version".data s with
  | none => none
  | some (_, r1) =>
    match (dropOptQuote r1).dropWhile isPySpace with
    | c :: r3 =>
      if c == ':' || c == '=' then
        let r5 := dropOptQuote (r3.dropWhile isPySpace)
        let d1 := r5.takeWhile Char.isDigit
        if d1.isEmpty then none
        else
          match r5.drop d1.length with
          | '.' :: r6 =>
            let d2 := r6.takeWhile Char.isDigit
            if d2.isEmpty then none
            else
              match r6.drop d2.length with
              | '.' :: r7 =>
                let d3 := r7.takeWhile Char.isDigit
                if d3.isEmpty then none
                else some (d1 ++ '.' :: d2 ++ '.' :: d3, r7.drop d3.length)
              | _ => none
          | _ => none
      else none
    | [] => none

/-- `re.findall` scanner for the version pattern. -/
def findVersionsFuel : Nat → List Char → List String
  | 0, _ => []
  | _ + 1, [] => []
  | fuel + 1, c :: cs =>
    match matchVersionAt (c :: cs) with
    | some (m, rest) => String.mk m :: findVersionsFuel fuel rest
    | none => findVersionsFuel fuel cs

def findVersions (html : List Char) : List String :=
  findVersionsFuel (html.length + 1) html

/-! ## HTML content analyzer (`analyze_html_content`) -/

/-- The sensitive keywords searched (lower-cased) inside each comment. -/
def sensitiveKeywords : List String :=
  ["password", "key", "secret", "token", "api"]

/-- The text the script derives from a comment:
`comment.strip()[:100]`. -/
def cleanedComment (c : List Char) : List Char := (pyStrip c).take 100

/-- Does the cleaned comment text contain a sensitive keyword
(case-insensitively, via `cleaned.lower()`)? -/
def hasKeyword (cleaned : List Char) : Bool :=
  sensitiveKeywords.any (fun k => hasSub k.data (lowerL cleaned))

/-- The `SensitiveComment` findings: the script enumerates only
`comments[:5]` and warns on each whose cleaned text contains a keyword;
the evidence is the cleaned text itself. -/
def commentFindings (html : List Char) : List Finding :=
  ((findComments html).take 5).filterMap (fun c =>
    if hasKeyword (cleanedComment c) then
      some ⟨.sensitiveComment, .warning, "comment", String.mk (cleanedComment c)⟩
    else none)

/-- The inline-script advisory: emitted only when more than 10 inline
`<script>` blocks are found. -/
def scriptAdvisory (html : List Char) : List Finding :=
  if (findScripts html).length > 10 then
    [⟨.manyScripts, .warning, "inline scripts",
      "Many inline scripts - Consider using CSP"⟩]
  else []

/-- The `NoCsrfToken` findings: one per form block whose captured content
contains neither `csrf` nor `token` (lower-cased substring tests).  The
evidence records the form's `action` value the script extracts (the
`re.search` capture, printed untruncated), or is empty when the script
finds none. -/
def formFindings (html : List Char) : List Finding :=
  (findForms html).filterMap (fun form =>
    if !hasSub "csrf".data (lowerL form) && !hasSub "token".data (lowerL form) then
      some ⟨.noCsrfToken, .warning, "form",
        (if hasSub "action=".data (lowerL form) then
          match searchAction form with
          | some a => String.mk a
          | none => ""
        else "")⟩
    else none)

/-- The `ExposedSecret` findings: one per (key, value) capture pair, at
critical severity; the printed evidence is the key and `value[:20]`. -/
def secretFindings (html : List Char) : List Finding :=
  (findSecrets html).map (fun kv =>
    ⟨.exposedSecret, .critical, String.mk kv.1,
     String.mk (kv.1 ++ ": ".data ++ kv.2.take 20)⟩)

/-- All findings of `analyze_html_content`, in the source's print order:
comments, inline-script advisory, forms, secrets.  (The external-script
extraction between them prints hosts only and emits no finding.) -/
def htmlFindingsOf (html : List Char) : List Finding :=
  commentFindings html ++ scriptAdvisory html ++ formFindings html ++
    secretFindings html

/-- The informational email-disclosure notes: the script prints
`list(set(emails))[:5]`.  Python's set iteration order is not a function
of the element list (string hash randomization), so it is modelled as an
oracle `setList` applied to the raw `findall` list; a run of CPython
corresponds to some oracle whose output enumerates the distinct elements. -/
def emailNotesOf (setList : List String → List String) (html : List Char) :
    List String :=
  (setList (findEmails html)).take 5

/-- `analyze_html_content`: skipped entirely (`if not response: return`)
when the primary fetch failed or the response is falsy (`response.ok` is
false); otherwise returns the HTML findings and the email notes. -/
def analyze_html_content (setList : List String → List String)
    (r : Option Response) : List Finding × List String :=
  match r with
  | none => ([], [])
  | some resp =>
    if !response_ok resp then ([], [])
    else (htmlFindingsOf resp.body.data, emailNotesOf setList resp.body.data)

/-! ## TLS posture check (`check_ssl_tls`) -/

/-- `check_ssl_tls`: plain `http` warns without any request; `https`
performs a GET guarded only by `except requests.exceptions.SSLError`, so
an `SSLError` becomes a finding with the exception message as evidence
while any other exception propagates to the caller.  The second component
counts the `requests.get` calls issued. -/
def check_ssl_tls (scheme : String) (p : ProbeOutcome) :
    Except (ExnKind × String) (List Finding) × Nat :=
  if scheme == "http" then
    (.ok [⟨.weakTls, .critical, "http", "Site uses HTTP (not HTTPS)"⟩], 0)
  else if scheme == "https" then
    (match p with
     | .ok _ => .ok []
     | .exn .sslError msg => .ok [⟨.weakTls, .critical, "https", msg⟩]
     | .exn k msg => .error (k, msg), 1)
  else (.ok [], 0)

/-! ## Information disclosure check (`check_information_disclosure`) -/

/-- `check_information_disclosure`: skipped when the response is falsy;
otherwise one `InfoDisclosure` finding per present `Server` /
`X-Powered-By` header (evidence = header value), and one for the body's
version strings when any are found (the script prints `set(versions)`,
so its evidence goes through the same set-order oracle). -/
def check_information_disclosure (setList : List String → List String)
    (r : Option Response) : List Finding :=
  match r with
  | none => []
  | some resp =>
    if !response_ok resp then []
    else
      (match headerGet resp.headers "Server" with
       | some v => [⟨.infoDisclosure, .info, "Server", v⟩]
       | none => []) ++
      (match headerGet resp.headers "X-Powered-By" with
       | some v => [⟨.infoDisclosure, .info, "X-Powered-By", v⟩]
       | none => []) ++
      (let versions := findVersions resp.body.data
       if versions.isEmpty then []
       else [⟨.infoDisclosure, .info, "version",
             String.intercalate ", " (setList versions)⟩])

/-! ## The audit driver (`main`) -/

/-- The whole network behaviour of one run: the parsed scheme of the
target (as `urlparse(url).scheme`), the outcome of the GET issued inside
`check_ssl_tls`, the outcome of the primary GET issued inside
`check_security_headers`, and the outcome of each file-exposure probe. -/
structure AuditInput where
  scheme : String
  tlsProbe : ProbeOutcome
  mainProbe : ProbeOutcome
  fileProbe : String → ProbeOutcome

structure AuditReport where
  findings : List Finding
  emailNotes : List String
  fileSummary : FileSummary
  deriving DecidableEq, Repr

/-- `main`'s check sequence: `check_ssl_tls`, `check_security_headers`,
`check_common_files`, `analyze_html_content`,
`check_information_disclosure`.  An exception escaping `check_ssl_tls`
aborts the run (modelled as `.error`); otherwise the findings are
collected in that fixed phase order. -/
def runAudit (setList : List String → List String) (inp : AuditInput) :
    Except (ExnKind × String) AuditReport :=
  match (check_ssl_tls inp.scheme inp.tlsProbe).1 with
  | .error e => .error e
  | .ok tlsFs =>
    .ok { findings := tlsFs ++ (check_security_headers inp.mainProbe).2 ++
            fileFindings inp.fileProbe ++
            (analyze_html_content setList (check_security_headers inp.mainProbe).1).1 ++
            check_information_disclosure setList
              (check_security_headers inp.mainProbe).1,
          emailNotes :=
            (analyze_html_content setList (check_security_headers inp.mainProbe).1).2,
          fileSummary := fileSummaryOf inp.fileProbe }

/-- Read an `ok` report, or an empty report from an aborted run. -/
def getReport (e : Except (ExnKind × String) AuditReport) : AuditReport :=
  match e with
  | .ok rep => rep
  | .error _ => ⟨[], [], ⟨0, 0⟩⟩

/-- Did the run complete without an uncaught exception? -/
def auditOk (e : Except (ExnKind × String) AuditReport) : Bool :=
  match e with
  | .ok _ => true
  | .error _ => false

/-- Count the report's findings in one category. -/
def countCat (rep : AuditReport) (c : Category) : Nat :=
  rep.findings.countP (fun f => f.category == c)

/-! ## Lemmas about the file exposure prober -/

theorem filesStep_eq (probe : String → ProbeOutcome) (acc : List String × Nat)
    (file : String) :
    filesStep probe acc file =
      if isExposed probe file then (acc.1 ++ [file], acc.2)
      else (acc.1, acc.2 + 1) := by
  unfold filesStep isExposed
  cases probe file with
  | ok r => by_cases h : r.status == 200 <;> simp [h]
  | exn k m => simp

theorem foldl_files_spec (probe : String → ProbeOutcome) :
    ∀ (L : List String) (acc : List String × Nat),
      (L.foldl (filesStep probe) acc).1 = acc.1 ++ L.filter (isExposed probe) ∧
      (L.foldl (filesStep probe) acc).2 =
        acc.2 + (L.filter (fun f => !isExposed probe f)).length := by
  intro L
  induction L with
  | nil => intro acc; simp
  | cons fi rest ih =>
    intro acc
    rw [List.foldl_cons, filesStep_eq]
    by_cases h : isExposed probe fi
    · simp only [if_pos h]
      obtain ⟨h1, h2⟩ := ih (acc.1 ++ [fi], acc.2)
      refine ⟨?_, ?_⟩
      · rw [h1]; simp [List.filter_cons, h]
      · rw [h2]; simp [List.filter_cons, h]
    · simp only [if_neg h]
      obtain ⟨h1, h2⟩ := ih (acc.1, acc.2 + 1)
      refine ⟨?_, ?_⟩
      · rw [h1]; simp [List.filter_cons, h]
      · rw [h2]; simp [List.filter_cons, h]; omega

theorem length_filter_add_not (p : String → Bool) :
    ∀ L : List String,
      (L.filter p).length + (L.filter (fun f => !p f)).length = L.length := by
  intro L
  induction L with
  | nil => rfl
  | cons a l ih =>
    by_cases h : p a <;> simp [List.filter_cons, h, ← ih] <;> omega

/-- Claim C1: for every run of the file-exposure prober over its fixed
path list, `exposed + safe = checked` (the length of the path list); the
exposed list is exactly the sublist of paths whose probe returned a
response, and `isExposed` holds exactly when the non-redirected GET came
back with status exactly 200 — any other status and any exception count
as safe. -/
theorem c1_file_exposure_counts (probe : String → ProbeOutcome) :
    (check_common_files probe).1 = common_files.filter (isExposed probe) ∧
    (check_common_files probe).1.length + (check_common_files probe).2 =
      common_files.length ∧
    (∀ file, isExposed probe file = true ↔
      ∃ r, probe file = .ok r ∧ r.status = 200) := by
  obtain ⟨h1, h2⟩ := foldl_files_spec probe common_files ([], 0)
  refine ⟨?_, ?_, ?_⟩
  · simpa [check_common_files] using h1
  · have hl := length_filter_add_not (isExposed probe) common_files
    simp only [check_common_files] at *
    rw [h1, h2]
    simpa using hl
  · intro file
    unfold isExposed
    cases hp : probe file with
    | ok r =>
      simp only [beq_iff_eq]
      constructor
      · intro h; exact ⟨r, rfl, h⟩
      · rintro ⟨r2, hr2, hs⟩
        cases hr2
        exact hs
    | exn k m =>
      simp only [Bool.false_eq_true, false_iff]
      rintro ⟨r2, hr2, _⟩
      cases hr2

/-- Claim C1 witness: evaluated on a concrete probe map where `.env`
returns 200, `.git/config` returns 301 and everything else times out. -/
theorem c1_file_exposure_counts_witness :
    (check_common_files (fun f =>
        if f = ".env" then .ok ⟨200, [], ""⟩
        else if f = ".git/config" then .ok ⟨301, [], ""⟩
        else .exn .timeout "t")).1.length +
      (check_common_files (fun f =>
        if f = ".env" then .ok ⟨200, [], ""⟩
        else if f = ".git/config" then .ok ⟨301, [], ""⟩
        else .exn .timeout "t")).2 = common_files.length :=
  (c1_file_exposure_counts _).2.1

/-- Claim C8: a plain-`http` target yields exactly one Critical `WeakTls`
finding and performs zero `requests.get` calls; an `https` target whose
handshake succeeds yields no finding; an `https` target whose GET raises
`SSLError` yields exactly one Critical `WeakTls` finding whose evidence
is the failure message. -/
theorem c8_tls_posture (p : ProbeOutcome) (r : Response) (msg : String) :
    check_ssl_tls "http" p =
      (.ok [⟨.weakTls, .critical, "http", "Site uses HTTP (not HTTPS)"⟩], 0) ∧
    check_ssl_tls "https" (.ok r) = (.ok [], 1) ∧
    check_ssl_tls "https" (.exn .sslError msg) =
      (.ok [⟨.weakTls, .critical, "https", msg⟩], 1) := by
  refine ⟨?_, ?_, ?_⟩ <;> simp [check_ssl_tls]

/-! ## The end-to-end scenario of claim C3 -/

/-- The primary response of the C3 scene: only a `Content-Type` header and
a one-form body. -/
def scenResp : Response :=
  ⟨200, [("Content-Type", "text/html")], "<form><input name=\"x\"></form>"⟩

/-- The network behaviour of the C3 scene: `https` target, successful
handshake, primary response `scenResp`, and a 404 for every
file-exposure path. -/
def scenInp : AuditInput :=
  ⟨"https", .ok ⟨200, [], ""⟩, .ok scenResp, fun _ => .ok ⟨404, [], ""⟩⟩

def scenRep : AuditReport := getReport (runAudit (fun l => l.dedup) scenInp)

/-- Claim C3 counterexample: in the end-to-end scene the file-exposure
summary is `{checked := 21, exposed := 0}` — the fixed path list has 21
entries, not 20, so `checked = 20` is false. -/
theorem c3_checked_is_21_not_20 :
    scenRep.fileSummary = ⟨21, 0⟩ ∧ common_files.length = 21 ∧
    ¬(scenRep.fileSummary.checked = 20) := by
  decide

/-- Claim C3 as amended: the scene's report has exactly 7 `HeaderMissing`
findings, 1 `NoCsrfToken` finding, 0 `ExposedFile` findings, 0 `WeakTls`
findings, and file-exposure summary `{checked := 21, exposed := 0}` (the
fixed path list has 21 entries). -/
theorem c3_end_to_end :
    countCat scenRep .headerMissing = 7 ∧
    countCat scenRep .noCsrfToken = 1 ∧
    countCat scenRep .exposedFile = 0 ∧
    countCat scenRep .weakTls = 0 ∧
    scenRep.fileSummary = ⟨21, 0⟩ ∧
    auditOk (runAudit (fun l => l.dedup) scenInp) = true := by
  decide

/-! ## Claim C2: exception handling -/

/-- The one unguarded spot: an `https` target whose GET inside
`check_ssl_tls` raises anything other than `SSLError` (the only exception
its `try` catches). -/
def tlsUncaught (inp : AuditInput) : Bool :=
  inp.scheme == "https" &&
    (match inp.tlsProbe with
     | .exn k _ => !(k == .sslError)
     | .ok _ => false)

/-- Claim C2 counterexample: a timeout during the TLS check's GET
propagates out of `check_ssl_tls` and aborts the whole audit, so not
every combination of probe failures lets the audit run to completion. -/
theorem c2_timeout_aborts_audit :
    runAudit (fun l => l.dedup)
      ⟨"https", .exn .timeout "timed out", .ok ⟨200, [], ""⟩,
        fun _ => .ok ⟨404, [], ""⟩⟩ = .error (.timeout, "timed out") := by
  rfl

/-- Claim C2 as amended: every probe failure is absorbed as a value —
except inside `check_ssl_tls`, whose `try` catches only `SSLError`; the
audit completes exactly when no non-`SSLError` exception is raised by the
`https` GET of the TLS check.  Exceptions in the primary fetch and in
every file-exposure probe are always caught. -/
theorem c2_only_tls_check_can_abort (setList : List String → List String)
    (inp : AuditInput) :
    auditOk (runAudit setList inp) = !tlsUncaught inp := by
  rcases inp with ⟨s, tp, mp, fp⟩
  unfold runAudit auditOk tlsUncaught check_ssl_tls
  by_cases hs : s = "http"
  · subst hs; simp
  · by_cases hs2 : s = "https"
    · subst hs2
      simp only [String.reduceEq, if_false, beq_self_eq_true, Bool.true_and,
        reduceIte]
      cases tp with
      | ok r => simp
      | exn k m => cases k <;> simp
    · have h1 : (s == "http") = false := by simpa using hs
      have h2 : (s == "https") = false := by simpa using hs2
      simp [h1, h2]

/-! ## Claim C10: skipping on falsy responses -/

/-- Claim C10 counterexample: `requests` treats a response as truthy
unless `400 ≤ status < 600`, so a status-600 response is *not* skipped:
both the HTML analysis and the disclosure check run on it and can
produce findings even though `600 ≥ 400`. -/
theorem c10_status_600_not_skipped :
    (check_information_disclosure (fun l => l.dedup)
        (some ⟨600, [("Server", "nginx")], ""⟩)).length = 1 ∧
    (analyze_html_content (fun l => l.dedup)
        (some ⟨600, [], "<!-- password -->"⟩)).1 ≠ [] ∧
    400 ≤ 600 := by
  decide

/-- Claim C10 as amended: the HTML content analysis and the
information-disclosure check are skipped (zero findings, as if the fetch
had failed) exactly when the response is falsy, i.e. when
`400 ≤ status < 600` — not for every status `≥ 400`. -/
theorem c10_skipped_iff_not_ok (setList : List String → List String)
    (r : Response) :
    (response_ok r = false ↔ 400 ≤ r.status ∧ r.status < 600) ∧
    (response_ok r = false →
      analyze_html_content setList (some r) = ([], []) ∧
      check_information_disclosure setList (some r) = []) ∧
    analyze_html_content setList none = ([], []) ∧
    check_information_disclosure setList none = [] := by
  refine ⟨?_, ?_, rfl, rfl⟩
  · simp [response_ok]
  · intro h
    constructor
    · simp [analyze_html_content, h]
    · simp [check_information_disclosure, h]

/-- Claim C10 witness: a 404 response is falsy and both checks are
skipped on it. -/
theorem c10_skipped_iff_not_ok_witness :
    analyze_html_content (fun l => l.dedup)
        (some ⟨404, [], "<!-- password -->"⟩) = ([], []) ∧
    check_information_disclosure (fun l => l.dedup)
        (some ⟨404, [], "<!-- password -->"⟩) = [] :=
  (c10_skipped_iff_not_ok (fun l => l.dedup)
    ⟨404, [], "<!-- password -->"⟩).2.1 (by decide)

/-! ## Lemmas about the secret scanner -/

theorem matchCI_length (p : List Char) :
    ∀ s k r, matchCI p s = some (k, r) → k.length = p.length := by
  induction p with
  | nil =>
    intro s k r h
    unfold matchCI at h
    cases h
    rfl
  | cons pc ps ih =>
    intro s k r h
    cases s with
    | nil => exact absurd h (by simp [matchCI])
    | cons c cs =>
      unfold matchCI at h
      split at h
      · cases hm : matchCI ps cs with
        | none =>
          simp only [hm] at h
          exact Option.noConfusion h
        | some kr =>
          obtain ⟨k0, r0⟩ := kr
          simp only [hm] at h
          have hh := ih cs k0 r0 hm
          cases h
          simp only [List.length_cons]
          omega
      · cases h

theorem matchKeyRest_le (s k r : List Char)
    (h : matchKeyRest s = some (k, r)) : k.length ≤ 8 := by
  unfold matchKeyRest at h
  cases h1 : matchCI "token".data s with
  | some kr =>
    obtain ⟨k1, r1⟩ := kr
    simp only [h1] at h
    cases h
    rw [matchCI_length _ _ _ _ h1]
    decide
  | none =>
    simp only [h1] at h
    cases h2 : matchCI "secret".data s with
    | some kr =>
      obtain ⟨k1, r1⟩ := kr
      simp only [h2] at h
      cases h
      rw [matchCI_length _ _ _ _ h2]
      decide
    | none =>
      simp only [h2] at h
      rw [matchCI_length _ _ _ _ h]
      decide

theorem matchKeyAlt_le (s k r : List Char) (h : matchKeyAlt s = some (k, r)) :
    k.length ≤ 8 := by
  unfold matchKeyAlt at h
  cases ha : matchCI "api".data s with
  | none =>
    simp only [ha] at h
    exact matchKeyRest_le s k r h
  | some kr =>
    obtain ⟨k1, r1⟩ := kr
    simp only [ha] at h
    have hk1 : k1.length = 3 := by rw [matchCI_length _ _ _ _ ha]; rfl
    cases r1 with
    | nil => exact matchKeyRest_le s k r h
    | cons c r2 =>
      dsimp only at h
      by_cases hcond : (c == '_' || c == '-') = true
      · rw [if_pos hcond] at h
        cases hk : matchCI "key".data r2 with
        | some kr2 =>
          obtain ⟨k2, r3⟩ := kr2
          simp only [hk] at h
          cases h
          have hk2 : k2.length = 3 := by rw [matchCI_length _ _ _ _ hk]; rfl
          simp only [List.length_append, List.length_cons, hk1, hk2]
          omega
        | none =>
          simp only [hk] at h
          cases hk2 : matchCI "key".data (c :: r2) with
          | some kr2 =>
            obtain ⟨k2, r3⟩ := kr2
            simp only [hk2] at h
            cases h
            have hl2 : k2.length = 3 := by rw [matchCI_length _ _ _ _ hk2]; rfl
            simp only [List.length_append, hk1, hl2]
            omega
          | none =>
            simp only [hk2] at h
            exact matchKeyRest_le s k r h
      · rw [if_neg hcond] at h
        cases hk2 : matchCI "key".data (c :: r2) with
        | some kr2 =>
          obtain ⟨k2, r3⟩ := kr2
          simp only [hk2] at h
          cases h
          have hl2 : k2.length = 3 := by rw [matchCI_length _ _ _ _ hk2]; rfl
          simp only [List.length_append, hk1, hl2]
          omega
        | none =>
          simp only [hk2] at h
          exact matchKeyRest_le s k r h

theorem matchSecretAt_key_le (s k v rest : List Char)
    (h : matchSecretAt s = some (k, v, rest)) : k.length ≤ 8 := by
  unfold matchSecretAt at h
  cases ha : matchKeyAlt s with
  | none =>
    simp only [ha] at h
    exact Option.noConfusion h
  | some kr =>
    obtain ⟨k1, r1⟩ := kr
    simp only [ha] at h
    cases ht : matchSecretTail r1 with
    | none =>
      simp only [ht] at h
      exact Option.noConfusion h
    | some vr =>
      obtain ⟨v1, rest1⟩ := vr
      simp only [ht] at h
      cases h
      exact matchKeyAlt_le s k r1 ha

theorem findSecretsFuel_key_le :
    ∀ (fuel : Nat) (s : List Char) (kv : List Char × List Char),
      kv ∈ findSecretsFuel fuel s → kv.1.length ≤ 8 := by
  intro fuel
  induction fuel with
  | zero => intro s kv h; simp [findSecretsFuel] at h
  | succ n ih =>
    intro s kv h
    cases s with
    | nil => simp [findSecretsFuel] at h
    | cons c cs =>
      unfold findSecretsFuel at h
      cases hm : matchSecretAt (c :: cs) with
      | none =>
        simp only [hm] at h
        exact ih cs kv h
      | some kvr =>
        obtain ⟨k, v, rest⟩ := kvr
        simp only [hm] at h
        rcases List.mem_cons.mp h with h1 | h1
        · subst h1
          simpa using matchSecretAt_key_le _ _ _ _ hm
        · exact ih rest kv h1

theorem findSecrets_key_le (html : List Char) :
    ∀ kv ∈ findSecrets html, kv.1.length ≤ 8 :=
  fun kv h => findSecretsFuel_key_le _ html kv h

/-- Shape of every `ExposedSecret` finding: critical severity, detail the
key capture, evidence the key and the first 20 value characters, hence at
most 30 characters of evidence in total. -/
theorem secretFindings_spec (html : List Char) :
    ∀ f ∈ secretFindings html,
      f.category = .exposedSecret ∧ f.severity = .critical ∧
      ∃ kv ∈ findSecrets html,
        f.detail = String.mk kv.1 ∧
        f.evidence = String.mk (kv.1 ++ ": ".data ++ kv.2.take 20) ∧
        f.evidence.length ≤ 30 := by
  intro f hf
  unfold secretFindings at hf
  obtain ⟨kv, hkv, hfeq⟩ := List.mem_map.mp hf
  subst hfeq
  refine ⟨rfl, rfl, kv, hkv, rfl, rfl, ?_⟩
  have h8 := findSecrets_key_le html kv hkv
  have h20 : (kv.2.take 20).length ≤ 20 := by
    rw [List.length_take]; exact min_le_left _ _
  show (kv.1 ++ ": ".data ++ kv.2.take 20).length ≤ 30
  have h2 : (": ".data).length = 2 := rfl
  simp only [List.length_append, h2]
  omega

/-- Claim C4 counterexample: a secret value of exactly 20 characters is
reproduced in full inside the evidence, so the evidence does not "never
contain the full value". -/
theorem c4_value20_full_in_evidence :
    (secretFindings "token=\"aaaaaaaaaaaaaaaaaaaa\"".data).length = 1 ∧
    strHasSub ((secretFindings "token=\"aaaaaaaaaaaaaaaaaaaa\"".data).getD 0
        emptyFinding).evidence "aaaaaaaaaaaaaaaaaaaa" = true := by
  decide

/-- Claim C4 as amended: each match of the secret pattern yields exactly
one Critical `ExposedSecret` finding whose evidence is the key name plus
the first 20 characters of the value (at most 30 characters in total, so
a value longer than 20 characters is never reproduced whole *as the
value part*); in particular `token="abcdefghijklmnopqrstuvwxyz"` yields
exactly one finding and its evidence does not contain the full
26-character value. -/
theorem c4_secret_truncation (html : List Char) :
    (secretFindings html).length = (findSecrets html).length ∧
    (∀ f ∈ secretFindings html,
      f.category = .exposedSecret ∧ f.severity = .critical ∧
      ∃ kv ∈ findSecrets html,
        f.detail = String.mk kv.1 ∧
        f.evidence = String.mk (kv.1 ++ ": ".data ++ kv.2.take 20) ∧
        f.evidence.length ≤ 30) ∧
    (secretFindings "token=\"abcdefghijklmnopqrstuvwxyz\"".data).length = 1 ∧
    (∀ f ∈ secretFindings "token=\"abcdefghijklmnopqrstuvwxyz\"".data,
      strHasSub f.evidence "abcdefghijklmnopqrstuvwxyz" = false) := by
  refine ⟨by simp [secretFindings], secretFindings_spec html, by decide, by decide⟩

/-- Claim C4 witness: the single finding of the 26-character example,
with its severity read off through the theorem. -/
theorem c4_secret_truncation_witness :
    (⟨.exposedSecret, .critical, "token", "token: abcdefghijklmnopqrst"⟩ :
      Finding).severity = .critical :=
  ((c4_secret_truncation "token=\"abcdefghijklmnopqrstuvwxyz\"".data).2.1
    ⟨.exposedSecret, .critical, "token", "token: abcdefghijklmnopqrst"⟩
    (by decide)).2.1

/-! ## Lemmas about the comment scanner -/

/-- Shape of the `SensitiveComment` findings: at most five (only
`comments[:5]` is examined), warning severity, and evidence equal to the
stripped comment truncated to 100 characters, which is also where the
keyword search runs. -/
theorem commentFindings_spec (html : List Char) :
    (commentFindings html).length ≤ 5 ∧
    ∀ f ∈ commentFindings html,
      f.category = .sensitiveComment ∧ f.severity = .warning ∧
      f.evidence.length ≤ 100 ∧
      ∃ c ∈ findComments html,
        hasKeyword (cleanedComment c) = true ∧
        f.evidence = String.mk (cleanedComment c) := by
  constructor
  · calc (commentFindings html).length
        ≤ ((findComments html).take 5).length := List.length_filterMap_le _ _
      _ ≤ 5 := by rw [List.length_take]; exact min_le_left _ _
  · intro f hf
    unfold commentFindings at hf
    obtain ⟨c, hc, hceq⟩ := List.mem_filterMap.mp hf
    have hcFull : c ∈ findComments html := List.take_subset _ _ hc
    by_cases hk : hasKeyword (cleanedComment c)
    · rw [if_pos hk] at hceq
      cases hceq
      refine ⟨rfl, rfl, ?_, c, hcFull, hk, rfl⟩
      show (cleanedComment c).length ≤ 100
      unfold cleanedComment
      rw [List.length_take]
      exact min_le_left _ _
    · rw [if_neg hk] at hceq
      cases hceq

/-- The six-comment body whose last comment holds a keyword. -/
def sixCommentBody : String :=
  "<!--a--><!--b--><!--c--><!--d--><!--e--><!--password-->"

/-- Claim C7 counterexample: the body has six comments and the sixth
contains `password`, yet no `SensitiveComment` finding is produced —
only `comments[:5]` is ever scanned. -/
theorem c7_sixth_comment_ignored :
    (findComments sixCommentBody.data).length = 6 ∧
    hasKeyword (cleanedComment
      ((findComments sixCommentBody.data).getD 5 [])) = true ∧
    commentFindings sixCommentBody.data = [] := by
  decide

/-- A `filterMap` whose body is a guarded `some` is the `map` over the
`filter`. -/
theorem filterMap_ite_eq {α β : Type} (p : α → Bool) (g : α → β) :
    ∀ l : List α,
      l.filterMap (fun c => if p c then some (g c) else none) =
      (l.filter p).map g := by
  intro l
  induction l with
  | nil => rfl
  | cons a t ih =>
    by_cases h : p a <;>
      simp [List.filterMap_cons, List.filter_cons, h, ih]

/-- Claim C7 as amended: only the first five comments are scanned — the
findings are exactly one Warning `SensitiveComment` finding, in order,
per comment among the first five whose whitespace-stripped text
truncated to 100 characters contains a sensitive keyword
(case-insensitively), with that truncated text as evidence; qualifying
comments after the fifth never yield a finding; `<!-- api_key leaked -->`
yields one finding and `<!-- layout fix -->` yields none. -/
theorem c7_comment_scan (html : List Char) :
    commentFindings html =
      (((findComments html).take 5).filter
        (fun c => hasKeyword (cleanedComment c))).map
        (fun c => (⟨.sensitiveComment, .warning, "comment",
          String.mk (cleanedComment c)⟩ : Finding)) ∧
    (commentFindings html).length ≤ 5 ∧
    (∀ c ∈ (findComments html).take 5, hasKeyword (cleanedComment c) = true →
      (⟨.sensitiveComment, .warning, "comment",
        String.mk (cleanedComment c)⟩ : Finding) ∈ commentFindings html) ∧
    (∀ f ∈ commentFindings html,
      f.category = .sensitiveComment ∧ f.severity = .warning ∧
      f.evidence.length ≤ 100 ∧
      ∃ c ∈ (findComments html).take 5,
        hasKeyword (cleanedComment c) = true ∧
        f.evidence = String.mk (cleanedComment c)) ∧
    (commentFindings "<!-- api_key leaked -->".data).length = 1 ∧
    commentFindings "<!-- layout fix -->".data = [] := by
  have heq : commentFindings html =
      (((findComments html).take 5).filter
        (fun c => hasKeyword (cleanedComment c))).map
        (fun c => (⟨.sensitiveComment, .warning, "comment",
          String.mk (cleanedComment c)⟩ : Finding)) :=
    filterMap_ite_eq _ _ ((findComments html).take 5)
  refine ⟨heq, (commentFindings_spec html).1, ?_, ?_, by decide, by decide⟩
  · intro c hc hk
    rw [heq]
    exact List.mem_map_of_mem _ (List.mem_filter.mpr ⟨hc, hk⟩)
  · intro f hf
    rw [heq] at hf
    obtain ⟨c, hcf, hfeq⟩ := List.mem_map.mp hf
    obtain ⟨hc5, hk⟩ := List.mem_filter.mp hcf
    subst hfeq
    refine ⟨rfl, rfl, ?_, c, hc5, hk, rfl⟩
    show (cleanedComment c).length ≤ 100
    unfold cleanedComment
    rw [List.length_take]
    exact min_le_left _ _

/-- Claim C7 witness: the qualifying comment of the `api_key` example is
among the first five and yields its finding, read off through the
theorem's completeness direction. -/
theorem c7_comment_scan_witness :
    (⟨.sensitiveComment, .warning, "comment",
      String.mk (cleanedComment " api_key leaked ".data)⟩ : Finding) ∈
      commentFindings "<!-- api_key leaked -->".data :=
  (c7_comment_scan "<!-- api_key leaked -->".data).2.2.1
    " api_key leaked ".data (by decide) (by decide)

/-! ## Lemmas about the header analyzer -/

/-- Counting `HeaderMissing` findings for one header name over the
missing-header loop for any dict with pairwise-distinct names: exactly one
when the name is in the dict and absent from the response, zero
otherwise. -/
theorem countP_missing_generic (hs : List (String × String)) (name : String) :
    ∀ L : List (String × String), (L.map Prod.fst).Nodup →
      ((L.filter (fun nd => !headerHas hs nd.1)).map
          (fun nd => (⟨.headerMissing, .warning, nd.1, nd.2⟩ : Finding))).countP
        (fun f => f.category == Category.headerMissing && f.detail == name) =
      if name ∈ L.map Prod.fst ∧ headerHas hs name = false then 1 else 0 := by
  intro L
  induction L with
  | nil => intro _; simp
  | cons nd rest ih =>
    intro hnd
    obtain ⟨n, d⟩ := nd
    rw [List.map_cons] at hnd
    have h1 : n ∉ rest.map Prod.fst := (List.nodup_cons.mp hnd).1
    have h2 := (List.nodup_cons.mp hnd).2
    rw [List.filter_cons]
    cases hp : headerHas hs n with
    | true =>
      simp only [hp, Bool.not_true, Bool.false_eq_true, if_false]
      rw [ih h2]
      by_cases hn : name = n
      · subst hn
        simp [hp]
      · by_cases hm : name ∈ List.map Prod.fst rest <;>
          simp [hm, List.mem_cons, hn]
    | false =>
      simp only [hp, Bool.not_false, if_true, List.map_cons, List.countP_cons]
      rw [ih h2]
      by_cases hn : name = n
      · subst hn
        simp [h1, hp, List.mem_cons]
      · have hn2 : ¬(n = name) := fun hh => hn hh.symm
        by_cases hm : name ∈ List.map Prod.fst rest <;>
          simp [hm, List.mem_cons, hn, hn2]

/-- Every cookie-flag warning has category `CookieFlag`. -/
theorem cookieFindings_cat (hs : List (String × String)) :
    ∀ f ∈ cookieFindings hs, f.category = .cookieFlag ∧ f.severity = .warning := by
  intro f hf
  unfold cookieFindings at hf
  cases hc : headerGet hs "Set-Cookie" with
  | none => simp only [hc] at hf; simp at hf
  | some cookie =>
    simp only [hc] at hf
    have hsub : f = ⟨.cookieFlag, .warning, "Secure", "Missing Secure flag"⟩ ∨
        f = ⟨.cookieFlag, .warning, "HttpOnly", "Missing HttpOnly flag"⟩ ∨
        f = ⟨.cookieFlag, .warning, "SameSite", "Missing SameSite attribute"⟩ := by
      split_ifs at hf <;> simp [List.mem_append] at hf <;> tauto
    rcases hsub with h | h | h <;> subst h <;> exact ⟨rfl, rfl⟩

/-- Cookie-flag warnings never count as `HeaderMissing` findings. -/
theorem cookie_countP_zero (hs : List (String × String)) (p : Finding → Bool)
    (hp : ∀ f, f.category = .cookieFlag → p f = false) :
    (cookieFindings hs).countP p = 0 := by
  rw [List.countP_eq_zero]
  intro f hf
  have hc := (cookieFindings_cat hs f hf).1
  simp [hp f hc]

/-- Every missing-header finding carries category `HeaderMissing` and
warning severity. -/
theorem missingOf_cat (hs : List (String × String)) :
    ∀ f ∈ missingOf hs, f.category = .headerMissing ∧ f.severity = .warning := by
  intro f hf
  unfold missingOf at hf
  obtain ⟨nd, _, hfeq⟩ := List.mem_map.mp hf
  subst hfeq
  exact ⟨rfl, rfl⟩

/-- Claim C6: for every response, each of the seven security header names
absent from its headers (case-insensitive lookup) yields exactly one
Warning `HeaderMissing` finding and each present one yields none; in
particular a response carrying `Strict-Transport-Security` never gets a
`HeaderMissing` finding for that name, and a response carrying none of
the seven gets exactly seven. -/
theorem c6_missing_headers (r : Response) :
    (∀ nd ∈ security_headers, headerHas r.headers nd.1 = true →
      ((check_security_headers (.ok r)).2.countP
        (fun f => f.category == Category.headerMissing && f.detail == nd.1)) = 0) ∧
    (∀ nd ∈ security_headers, headerHas r.headers nd.1 = false →
      ((check_security_headers (.ok r)).2.countP
        (fun f => f.category == Category.headerMissing && f.detail == nd.1)) = 1) ∧
    (∀ f ∈ (check_security_headers (.ok r)).2, f.severity = .warning) ∧
    (headerHas r.headers "Strict-Transport-Security" = true →
      ((check_security_headers (.ok r)).2.countP
        (fun f => f.category == Category.headerMissing &&
          f.detail == "Strict-Transport-Security")) = 0) ∧
    ((∀ nd ∈ security_headers, headerHas r.headers nd.1 = false) →
      ((check_security_headers (.ok r)).2.countP
        (fun f => f.category == Category.headerMissing)) = 7) := by
  have hnodup : (security_headers.map Prod.fst).Nodup := by decide
  have hsplit : (check_security_headers (.ok r)).2 =
      missingOf r.headers ++ cookieFindings r.headers := rfl
  have hcount : ∀ name : String,
      ((check_security_headers (.ok r)).2.countP
        (fun f => f.category == Category.headerMissing && f.detail == name)) =
      if name ∈ security_headers.map Prod.fst ∧
          headerHas r.headers name = false then 1 else 0 := by
    intro name
    rw [hsplit, List.countP_append]
    unfold missingOf
    rw [countP_missing_generic r.headers name security_headers hnodup,
      cookie_countP_zero r.headers _ (by intro f hc; simp [hc])]
    exact Nat.add_zero _
  refine ⟨?_, ?_, ?_, ?_, ?_⟩
  · intro nd hnd hpres
    rw [hcount nd.1]
    simp [hpres]
  · intro nd hnd habs
    rw [hcount nd.1]
    simp [habs, List.mem_map.mpr ⟨nd, hnd, rfl⟩]
  · intro f hf
    rw [hsplit] at hf
    rcases List.mem_append.mp hf with h | h
    · exact (missingOf_cat r.headers f h).2
    · exact (cookieFindings_cat r.headers f h).2
  · intro hpres
    rw [hcount "Strict-Transport-Security"]
    simp [hpres]
  · intro hall
    rw [hsplit, List.countP_append,
      cookie_countP_zero r.headers _ (by intro f hc; simp [hc])]
    have hfull : (security_headers.filter
        (fun nd => !headerHas r.headers nd.1)) = security_headers := by
      rw [List.filter_eq_self]
      intro nd hnd
      simp [hall nd hnd]
    have hlen : (missingOf r.headers).countP
        (fun f => f.category == Category.headerMissing) =
        (missingOf r.headers).length := by
      rw [List.countP_eq_length]
      intro f hf
      simp [(missingOf_cat r.headers f hf).1]
    rw [hlen]
    unfold missingOf
    rw [hfull, List.length_map]
    rfl

/-- Claim C6 witness: a response carrying only
`Strict-Transport-Security` yields no `HeaderMissing` finding for that
name. -/
theorem c6_missing_headers_witness :
    ((check_security_headers (.ok
        ⟨200, [("Strict-Transport-Security", "max-age=63072000")], ""⟩)).2.countP
      (fun f => f.category == Category.headerMissing &&
        f.detail == "Strict-Transport-Security")) = 0 :=
  (c6_missing_headers
    ⟨200, [("Strict-Transport-Security", "max-age=63072000")], ""⟩).2.2.2.1
    (by decide)

/-! ## Category lemmas for the remaining analyzers -/

theorem tls_findings_cat (scheme : String) (p : ProbeOutcome) (fs : List Finding)
    (h : (check_ssl_tls scheme p).1 = .ok fs) : ∀ f ∈ fs, f.category = .weakTls := by
  unfold check_ssl_tls at h
  split_ifs at h
  · cases h
    intro f hf
    simp at hf
    subst hf
    rfl
  · cases p with
    | ok r =>
      dsimp only at h
      cases h
      intro f hf
      simp at hf
    | exn k msg =>
      cases k <;> dsimp only at h <;> first
        | exact Except.noConfusion h
        | (cases h; intro f hf; simp at hf; subst hf; rfl)
  · cases h
    intro f hf
    simp at hf

theorem fileFindings_cat (probe : String → ProbeOutcome) :
    ∀ f ∈ fileFindings probe, f.category = .exposedFile := by
  intro f hf
  obtain ⟨x, _, hfeq⟩ := List.mem_map.mp hf
  subst hfeq
  rfl

theorem formFindings_cat (html : List Char) :
    ∀ f ∈ formFindings html, f.category = .noCsrfToken := by
  intro f hf
  unfold formFindings at hf
  obtain ⟨form, _, hfeq⟩ := List.mem_filterMap.mp hf
  split_ifs at hfeq <;> cases hfeq
  all_goals rfl

theorem scriptAdvisory_cat (html : List Char) :
    ∀ f ∈ scriptAdvisory html, f.category = .manyScripts := by
  intro f hf
  unfold scriptAdvisory at hf
  split_ifs at hf
  · simp at hf; subst hf; rfl
  · simp at hf

theorem info_findings_cat (setList : List String → List String)
    (r : Option Response) :
    ∀ f ∈ check_information_disclosure setList r, f.category = .infoDisclosure := by
  intro f hf
  unfold check_information_disclosure at hf
  cases r with
  | none => simp at hf
  | some resp =>
    by_cases hok : response_ok resp
    · simp only [hok, Bool.not_true, Bool.false_eq_true, if_false] at hf
      rcases List.mem_append.mp hf with hl | hv
      · rcases List.mem_append.mp hl with hsv | hxp
        · cases hsrv : headerGet resp.headers "Server" with
          | none => rw [hsrv] at hsv; simp at hsv
          | some v => rw [hsrv] at hsv; simp at hsv; subst hsv; rfl
        · cases hxpb : headerGet resp.headers "X-Powered-By" with
          | none => rw [hxpb] at hxp; simp at hxp
          | some v => rw [hxpb] at hxp; simp at hxp; subst hxp; rfl
      · by_cases hv2 : (findVersions resp.body.data).isEmpty
        · simp [hv2] at hv
        · simp only [hv2, Bool.false_eq_true, if_false] at hv
          simp at hv
          subst hv
          rfl
    · simp only [Bool.not_eq_true] at hok
      simp [hok] at hf

/-- The two length caps, stated per finding. -/
def evidenceCaps (f : Finding) : Prop :=
  (f.category = .sensitiveComment → f.evidence.length ≤ 100) ∧
  (f.category = .exposedSecret → f.evidence.length ≤ 30)

theorem vacuous_caps {f : Finding} (h1 : f.category ≠ .sensitiveComment)
    (h2 : f.category ≠ .exposedSecret) : evidenceCaps f :=
  ⟨fun hc => absurd hc h1, fun hc => absurd hc h2⟩

theorem htmlFindings_caps (html : List Char) :
    ∀ f ∈ htmlFindingsOf html, evidenceCaps f := by
  intro f hf
  unfold htmlFindingsOf at hf
  rcases List.mem_append.mp hf with h3 | hsec
  · rcases List.mem_append.mp h3 with h2 | hform
    · rcases List.mem_append.mp h2 with hcom | hscr
      · obtain ⟨hcat, _, hlen, _⟩ := (commentFindings_spec html).2 f hcom
        exact ⟨fun _ => hlen, fun hc => by rw [hcat] at hc; cases hc⟩
      · have hcat := scriptAdvisory_cat html f hscr
        exact vacuous_caps (by rw [hcat]; decide) (by rw [hcat]; decide)
    · have hcat := formFindings_cat html f hform
      exact vacuous_caps (by rw [hcat]; decide) (by rw [hcat]; decide)
  · obtain ⟨hcat, _, _, _, _, _, hlen⟩ := secretFindings_spec html f hsec
    refine ⟨fun hc => ?_, fun _ => hlen⟩
    rw [hcat] at hc
    cases hc

theorem analyze_caps (setList : List String → List String) (r : Option Response) :
    ∀ f ∈ (analyze_html_content setList r).1, evidenceCaps f := by
  intro f hf
  unfold analyze_html_content at hf
  cases r with
  | none => simp at hf
  | some resp =>
    by_cases hok : response_ok resp
    · simp only [hok, Bool.not_true, Bool.false_eq_true, if_false] at hf
      exact htmlFindings_caps resp.body.data f hf
    · simp only [Bool.not_eq_true] at hok
      simp [hok] at hf

theorem hdr_findings_cat (p : ProbeOutcome) :
    ∀ f ∈ (check_security_headers p).2,
      f.category = .headerMissing ∨ f.category = .cookieFlag := by
  intro f hf
  cases p with
  | exn k m => simp [check_security_headers] at hf
  | ok r =>
    simp only [check_security_headers] at hf
    rcases List.mem_append.mp hf with h | h
    · exact Or.inl (missingOf_cat r.headers f h).1
    · exact Or.inr (cookieFindings_cat r.headers f h).1

/-! ## Claim C5: evidence lengths -/

/-- A 150-character TLS failure message. -/
def longMsg : String := String.mk (List.replicate 150 'x')

def c5Inp : AuditInput :=
  ⟨"https", .exn .sslError longMsg, .exn .connectionError "refused",
    fun _ => .exn .timeout "t"⟩

set_option maxRecDepth 4000 in
/-- Claim C5 counterexample: the `WeakTls` evidence is the raw exception
message, printed untruncated — here a 150-character message survives
whole in the report's only finding, violating the 100-character cap. -/
theorem c5_weaktls_evidence_uncapped :
    (getReport (runAudit (fun l => l.dedup) c5Inp)).findings.length = 1 ∧
    ((getReport (runAudit (fun l => l.dedup) c5Inp)).findings.getD 0
        emptyFinding).category = .weakTls ∧
    ((getReport (runAudit (fun l => l.dedup) c5Inp)).findings.getD 0
        emptyFinding).evidence.length = 150 ∧
    ¬(((getReport (runAudit (fun l => l.dedup) c5Inp)).findings.getD 0
        emptyFinding).evidence.length ≤ 100) := by
  decide

/-- Claim C5 as amended: in every run, `SensitiveComment` evidence is
capped at 100 characters and `ExposedSecret` evidence at 30 characters
(key plus at most 20 value characters); but `NoCsrfToken` action
evidence, `WeakTls` failure messages and `InfoDisclosure` header values
are emitted untruncated and can exceed 100 characters. -/
theorem c5_evidence_caps (setList : List String → List String)
    (inp : AuditInput) :
    ∀ f ∈ (getReport (runAudit setList inp)).findings,
      (f.category = .sensitiveComment → f.evidence.length ≤ 100) ∧
      (f.category = .exposedSecret → f.evidence.length ≤ 30) := by
  intro f hf
  unfold runAudit at hf
  cases htl : (check_ssl_tls inp.scheme inp.tlsProbe).1 with
  | error e =>
    simp only [htl, getReport] at hf
    simp at hf
  | ok tlsFs =>
    simp only [htl, getReport] at hf
    simp only [List.mem_append] at hf
    rcases hf with ⟨⟨⟨htls | hhdr⟩ | hfile⟩ | hhtml⟩ | hinfo
    · have hcat := tls_findings_cat inp.scheme inp.tlsProbe tlsFs htl f htls
      exact vacuous_caps (by rw [hcat]; decide) (by rw [hcat]; decide)
    · rcases hdr_findings_cat inp.mainProbe f hhdr with hcat | hcat <;>
        exact vacuous_caps (by rw [hcat]; decide) (by rw [hcat]; decide)
    · have hcat := fileFindings_cat inp.fileProbe f hfile
      exact vacuous_caps (by rw [hcat]; decide) (by rw [hcat]; decide)
    · exact analyze_caps setList (check_security_headers inp.mainProbe).1 f hhtml
    · have hcat := info_findings_cat setList
        (check_security_headers inp.mainProbe).1 f hinfo
      exact vacuous_caps (by rw [hcat]; decide) (by rw [hcat]; decide)

/-- Claim C5 witness: the comment finding of a concrete run obeys the
100-character cap. -/
theorem c5_evidence_caps_witness :
    (⟨.sensitiveComment, .warning, "comment", "password"⟩ :
      Finding).evidence.length ≤ 100 :=
  (c5_evidence_caps (fun l => l.dedup)
    ⟨"https", .ok ⟨200, [], ""⟩, .ok ⟨200, [], "<!-- password -->"⟩,
      fun _ => .ok ⟨404, [], ""⟩⟩
    ⟨.sensitiveComment, .warning, "comment", "password"⟩ (by decide)).1 rfl

/-! ## Claim C9: determinism across runs -/

/-- Keep everything except the version-note finding, whose evidence is
rendered from a Python set. -/
def notVersionNote (f : Finding) : Bool :=
  !(f.category == Category.infoDisclosure && f.detail == "version")

/-- The part of the audit output that does not pass through Python set
iteration: all findings except the version note, and the file summary
(email notes dropped). -/
def reportCore (e : Except (ExnKind × String) AuditReport) :
    Except (ExnKind × String) (List Finding × FileSummary) :=
  match e with
  | .error err => .error err
  | .ok rep => .ok (rep.findings.filter notVersionNote, rep.fileSummary)

theorem analyze_fst_oracle_free (o1 o2 : List String → List String)
    (r : Option Response) :
    (analyze_html_content o1 r).1 = (analyze_html_content o2 r).1 := by
  cases r with
  | none => rfl
  | some resp =>
    unfold analyze_html_content
    by_cases hok : response_ok resp <;> simp [hok]

theorem info_filter_oracle_free (o1 o2 : List String → List String)
    (r : Option Response) :
    (check_information_disclosure o1 r).filter notVersionNote =
    (check_information_disclosure o2 r).filter notVersionNote := by
  cases r with
  | none => rfl
  | some resp =>
    unfold check_information_disclosure
    by_cases hok : response_ok resp
    · by_cases hv : (findVersions resp.body.data).isEmpty <;>
        simp [hok, hv, List.filter_append, notVersionNote]
    · simp [hok]

/-- Claim C9 as amended: for fixed probe responses the audit is a pure
function of the responses and of the iteration order Python's sets give
the distinct emails and version strings.  Everything outside the email
notes and the version note is identical across any two runs; the email
notes are some enumeration of the distinct addresses truncated to five —
their count is `min 5 (number of distinct addresses)` and each is an
address found in the body — but they are not the first five in order of
appearance. -/
theorem c9_determinism_modulo_set_order :
    (∀ (o1 o2 : List String → List String) (inp : AuditInput),
      reportCore (runAudit o1 inp) = reportCore (runAudit o2 inp)) ∧
    (∀ (o : List String → List String) (html : List Char),
      (o (findEmails html)).Perm (findEmails html).dedup →
      (emailNotesOf o html).length = min 5 (findEmails html).dedup.length ∧
      ∀ e ∈ emailNotesOf o html, e ∈ findEmails html) := by
  constructor
  · intro o1 o2 inp
    unfold runAudit
    cases htl : (check_ssl_tls inp.scheme inp.tlsProbe).1 with
    | error e => rfl
    | ok tlsFs =>
      unfold reportCore
      simp only
      rw [analyze_fst_oracle_free o1 o2 (check_security_headers inp.mainProbe).1]
      simp only [List.filter_append]
      rw [info_filter_oracle_free o1 o2 (check_security_headers inp.mainProbe).1]
  · intro o html hperm
    constructor
    · unfold emailNotesOf
      rw [List.length_take, hperm.length_eq]
    · intro e he
      have h1 : e ∈ o (findEmails html) :=
        List.take_subset _ _ he
      have h2 : e ∈ (findEmails html).dedup := hperm.mem_iff.mp h1
      exact List.mem_dedup.mp h2

def inp9 : AuditInput :=
  ⟨"https", .ok ⟨200, [], ""⟩, .ok ⟨200, [], "a@ex.com b@ex.com"⟩,
    fun _ => .ok ⟨404, [], ""⟩⟩

/-- Claim C9 counterexample: two runs that differ only in the set
iteration order (which Python does not fix across processes — string
hashing is randomized) produce different reports, and the email notes
under the reversed order are not the addresses in order of
appearance. -/
theorem c9_set_order_changes_output :
    getReport (runAudit (fun l => l.dedup) inp9) ≠
      getReport (runAudit (fun l => l.dedup.reverse) inp9) ∧
    (getReport (runAudit (fun l => l.dedup.reverse) inp9)).emailNotes ≠
      findEmails "a@ex.com b@ex.com".data := by
  decide

/-- Claim C9 witness: with the identity enumeration of a one-address
body, the notes have length `min 5 1` and consist of found addresses. -/
theorem c9_determinism_witness :
    (emailNotesOf (fun l => l.dedup) " a@ex.com ".data).length =
      min 5 (findEmails " a@ex.com ".data).dedup.length :=
  (c9_determinism_modulo_set_order.2 (fun l => l.dedup) " a@ex.com ".data
    (by decide)).1

end SecAudit

